import Mathlib

/-!
Verification development for the `httd` REST-dispatch subsystem of the
Vedza/disgord repository (file `internal/httd/client.go`).

Go byte slices and Go strings are both byte sequences; we model both as
Lean `String` (the conversion `string(body)` is the identity).  Go's
`http.Header` (a `map[string][]string`) is modelled as an association
list with unique keys; the `Get`/`Set`/`Add`/`Del` operations are
modelled pointwise (all header keys used by the code are already in
canonical MIME form, so key canonicalisation is the identity here).
External collaborators (the gzip codec, the JSON codec, the transport,
the bucket manager) are parameters or spec-modelled definitions.
-/

namespace Httd

/-! ## Constants (from `client.go` lines 19-35) -/

def BaseURL : String := "https://discord.com/api"

def ContentEncoding : String := "Content-Encoding"

def ContentType : String := "Content-Type"

def ContentTypeJSON : String := "application/json"

def GZIPCompression : String := "gzip"

/-- Modelled from the spec: the audit-annotation request header constant
(`XAuditLogReason`) is declared in the repository's `httd` package outside
`src/`; the spec calls it the audit annotation header. -/
def XAuditLogReason : String := "X-Audit-Log-Reason"

/-- Modelled from the spec: the client-stamped receipt-timestamp header
constant (`XDisgordNow`) is declared in the repository's `httd` package
outside `src/`; the spec calls it the client-stamped "now" value. -/
def XDisgordNow : String := "X-Disgord-Now"

/-! ## Header model (Go `http.Header = map[string][]string`) -/

/-- A Go `http.Header` value: association list from key to value list. -/
abbrev HeaderVal := List (String × List String)

/-- Value list stored under a key (Go `h[k]`; `[]` plays the role of the
missing entry / nil slice). -/
def hGetVals : HeaderVal → String → List String
  | [], _ => []
  | p :: t, k => if p.1 = k then p.2 else hGetVals t k

/-- Replace the value list under a key, or append a new entry
(Go `h[k] = vs`). -/
def hSetVals : HeaderVal → String → List String → HeaderVal
  | [], k, vs => [(k, vs)]
  | p :: t, k, vs => if p.1 = k then (k, vs) :: t else p :: hSetVals t k vs

/-- Go `http.Header.Add`: `h[k] = append(h[k], v)`. -/
def hAdd (h : HeaderVal) (k v : String) : HeaderVal :=
  hSetVals h k (hGetVals h k ++ [v])

/-- Go `http.Header.Set`: `h[k] = []string{v}`. -/
def hSet (h : HeaderVal) (k v : String) : HeaderVal :=
  hSetVals h k [v]

/-- Go `http.Header.Del`: `delete(h, k)`. -/
def hDel (h : HeaderVal) (k : String) : HeaderVal :=
  h.filter (fun p => p.1 != k)

/-- Go `http.Header.Get`: first value under the key, `""` if absent. -/
def hGet (h : HeaderVal) (k : String) : String :=
  (hGetVals h k).headD ""

/-- Inner loop of `copyHeader`: `for i := range vs { cp.Add(k, vs[i]) }`. -/
def addVals (cp : HeaderVal) (k : String) (vs : List String) : HeaderVal :=
  vs.foldl (fun cp v => hAdd cp k v) cp

/-- `copyHeader` (`client.go` lines 118-126): a fresh header built by
`Add`-ing every value of every entry of `h`. -/
def copyHeader (h : HeaderVal) : HeaderVal :=
  h.foldl (fun cp p => addVals cp p.1 p.2) []

/-! ## Error value (`client.go` lines 69-82) -/

/-- `ErrREST`: the structured REST error.  Fields tagged `json:"-"` in Go
(`Suggestion`, `HTTPCode`, `Bucket`, `HashedEndpoint`) are never touched
by `json.Unmarshal`; only `Code` (`json:"code"`) and `Msg`
(`json:"message"`) are decodable. -/
structure ErrREST where
  Code : Int
  Msg : String
  Suggestion : String
  HTTPCode : Int
  Bucket : List String
  HashedEndpoint : String
deriving DecidableEq

/-! ## Request (repo code outside `src/`; modelled from the spec) -/

/-- Opaque token standing for an arbitrary Go value handed to the JSON
codec (`json.Marshal`'s argument). -/
structure JVal where
  id : Nat
deriving DecidableEq

/-- The dynamic type of `Request.Body` (`interface{}`): either an
`io.Reader` (raw byte reader, its readable bytes given) or any other
structured value pending serialization. -/
inductive GoBody where
  | reader (data : String)
  | value (v : JVal)
deriving DecidableEq

/-- Modelled from the spec: the `Request` struct is declared in the
repository's `httd` package outside `src/`.  Spec §3: method; concrete
endpoint path; a bucket key derived deterministically from the path;
body; content type (default JSON); optional audit annotation
(`Reason`); the private fields `bodyReader` and `hashedEndpoint` are
set only by the pipeline itself. -/
structure Request where
  method : String
  endpoint : String
  body : Option GoBody
  contentType : String
  reason : String
  bodyReader : Option String
  hashedEndpoint : String
deriving DecidableEq

/-- Modelled from the spec: the bucket-key derivation replaces variable
path segments (numeric identifiers) by a placeholder so structurally
identical routes collapse to one key; we use `*` as the placeholder.
Deterministic, and non-empty whenever the endpoint is non-empty. -/
def hashEndpoint (e : String) : String :=
  String.mk (e.data.map (fun c => if c.isDigit then '*' else c))

/-- Modelled from the spec: `Request.PopulateMissing` (finalization,
spec §4.1) defaults the content type to JSON and derives the bucket
key; it never re-derives a field that is already set (idempotent). -/
def Request.PopulateMissing (r : Request) : Request :=
  { r with
    contentType := if r.contentType = "" then ContentTypeJSON else r.contentType
    hashedEndpoint :=
      if r.hashedEndpoint = "" then hashEndpoint r.endpoint else r.hashedEndpoint }

/-! ## Body preparation (`client.go` lines 228-242, 315-323) -/

/-- Errors returned by `Client.Do`, tagged by their construction site. -/
inductive DoError where
  | validation (msg : String)
  | marshalFailed (msg : String)
  | newRequestFailed (msg : String)
  | txnFailed (msg : String)
  | rest (e : ErrREST)
deriving DecidableEq

/-- The validation-error text of `client.go` line 235. -/
def validationMsg : String :=
  "unknown request body types and only be used in conjunction with httd.ContentTypeJSON"

/-- `convertStructToIOReader` (`client.go` lines 315-323): marshal the
value and wrap the bytes in a reader (readable bytes returned). -/
def convertStructToIOReader (marshal : JVal → Except String String) (v : JVal) :
    Except String String :=
  match marshal v with
  | .error e => .error e
  | .ok bs => .ok bs

/-- `client.go` lines 228-242: populate `bodyReader` from `Body`.
A raw `io.Reader` body is used as-is; any other non-nil body must be
paired with the JSON content type and is marshalled. -/
def prepareBody (marshal : JVal → Except String String) (r : Request) :
    Except DoError Request :=
  match r.body, r.bodyReader with
  | some b, none =>
    match b with
    | .reader d => .ok { r with bodyReader := some d }
    | .value v =>
      if r.contentType ≠ ContentTypeJSON then
        .error (.validation validationMsg)
      else
        match convertStructToIOReader marshal v with
        | .error e => .error (.marshalFailed e)
        | .ok bs => .ok { r with bodyReader := some bs }
  | _, _ => .ok r

/-! ## Client construction (`client.go` lines 84-187) -/

/-- Opaque token standing for an injected `HttpClientDoer` implementation
(interface, `client.go` lines 84-86). -/
structure HttpDoer where
  id : Nat
deriving DecidableEq

/-- Opaque token standing for a `RESTBucketManager` implementation
(interface, `client.go` lines 53-67). -/
structure BucketMgr where
  id : Nat
deriving DecidableEq

/-- Modelled from the spec: `NewManager(nil)` (the default rate-limit
bucket manager constructor, repo code outside `src/`) yields the default
manager; we only need its identity. -/
def defaultManager : BucketMgr := ⟨0⟩

/-- The `Client` struct (`client.go` lines 88-95). -/
structure Client where
  url : String
  reqHeader : HeaderVal
  httpClient : HttpDoer
  cancelRequestWhenRateLimited : Bool
  buckets : BucketMgr
deriving DecidableEq

/-- The `Config` struct (`client.go` lines 170-187).  Interface-typed
fields use `Option` so that Go's `nil` is representable. -/
structure Config where
  apiVersion : Int
  botToken : String
  httpClient : Option HttpDoer
  cancelRequestWhenRateLimited : Bool
  restBucketManager : Option BucketMgr
  userAgentVersion : String
  userAgentSourceURL : String
  userAgentExtra : String
deriving DecidableEq

/-- `SupportsDiscordAPIVersion` (`client.go` lines 101-116): linear scan
of the fixed allow-list `[8]`, stopping at the first match. -/
def SupportsDiscordAPIVersion (version : Int) : Bool :=
  let supports : List Int := [8]
  supports.any (fun supportedVersion => supportedVersion == version)

/-- The `User-Agent` value (`UserAgentFormat = "DiscordBot (%s, %s) %s"`,
assembled in `NewClient` line 155). -/
def userAgentString (conf : Config) : String :=
  "DiscordBot (" ++ conf.userAgentSourceURL ++ ", " ++ conf.userAgentVersion ++ ") "
    ++ conf.userAgentExtra

/-- `NewClient` (`client.go` lines 129-168). -/
def NewClient (conf : Config) : Except String Client :=
  if ¬ SupportsDiscordAPIVersion conf.apiVersion then
    .error ("Discord API version " ++ toString conf.apiVersion ++ " is not supported")
  else if conf.botToken = "" then
    .error "no Discord Bot Token was provided"
  else
    match conf.httpClient with
    | none => .error "missing http client"
    | some hc =>
      let mgr := conf.restBucketManager.getD defaultManager
      if conf.userAgentSourceURL = "" ∨ conf.userAgentVersion = "" then
        .error "both a source(url) and a version must be present for sending requests to the Discord REST API"
      else
        .ok { url := BaseURL ++ "/v" ++ toString conf.apiVersion
              reqHeader :=
                [("Authorization", [conf.botToken]),
                 ("User-Agent", [userAgentString conf]),
                 ("Accept-Encoding", ["gzip"])]
              httpClient := hc
              cancelRequestWhenRateLimited := false
              buckets := mgr }

/-! ## Response and body decoding (`client.go` lines 197-224) -/

/-- An `*http.Response` as consumed by the pipeline: status code, header,
and the outcome of draining its body with `ioutil.ReadAll`. -/
structure Response where
  statusCode : Int
  header : HeaderVal
  bodyRead : Except String String

/-- `Client.decodeResponseBody` (`client.go` lines 197-224): drain the
body; if the `Content-Encoding` header declares gzip, decompress through
the injected stdlib gzip reader `gunzip`, otherwise pass the bytes
through unchanged. -/
def Client.decodeResponseBody (gunzip : String → Except String String)
    (resp : Response) : Except String String :=
  match resp.bodyRead with
  | .error e => .error e
  | .ok buffer =>
    if hGet resp.header ContentEncoding = GZIPCompression then gunzip buffer
    else .ok buffer

/-! ## JSON decoding of server error fields (repo codec outside `src/`) -/

/-- Whitespace skipper for the modelled JSON codec. -/
def skipWs : List Char → List Char
  | [] => []
  | c :: t => if c = ' ' then skipWs t else c :: t

/-- Characters of a JSON string literal up to the closing quote (escape
sequences are treated as decode failure by this model). -/
def parseStrChars : List Char → Option (List Char × List Char)
  | [] => none
  | c :: t =>
    if c = '"' then some ([], t)
    else if c = '\\' then none
    else
      match parseStrChars t with
      | some (s, rest) => some (c :: s, rest)
      | none => none

/-- Decimal digit accumulator. -/
def parseDigitsAux (acc : Nat) : List Char → Nat × List Char
  | [] => (acc, [])
  | c :: t => if c.isDigit then parseDigitsAux (acc * 10 + (c.toNat - 48)) t else (acc, c :: t)

/-- A parsed flat JSON value: integer, string, or anything else. -/
inductive JField where
  | num (n : Int)
  | str (s : String)
deriving DecidableEq

/-- Parse one flat JSON value (string or integer; other shapes are
decode failure in this model). -/
def parseValue : List Char → Option (JField × List Char)
  | [] => none
  | c :: t =>
    if c = '"' then
      match parseStrChars t with
      | some (s, rest) => some (.str (String.mk s), rest)
      | none => none
    else if c = '-' then
      match t with
      | d :: _ =>
        if d.isDigit then
          let (n, rest) := parseDigitsAux 0 t
          some (.num (-(n : Int)), rest)
        else none
      | [] => none
    else if c.isDigit then
      let (n, rest) := parseDigitsAux 0 (c :: t)
      some (.num (n : Int), rest)
    else none

/-- Fold one decoded field into the `(code, message)` accumulator; a type
mismatch on a decodable field is a decode failure (as in `json.Unmarshal`). -/
def updateFields (key : String) (v : JField) (code : Option Int) (msg : Option String) :
    Option (Option Int × Option String) :=
  if key = "code" then
    match v with
    | .num n => some (some n, msg)
    | _ => none
  else if key = "message" then
    match v with
    | .str s => some (code, some s)
    | _ => none
  else some (code, msg)

/-- Field-list loop of the modelled JSON object decoder (fuel-indexed). -/
def parseFieldsAux : Nat → List Char → Option Int → Option String →
    Option (Option Int × Option String)
  | 0, _, _, _ => none
  | fuel + 1, l, code, msg =>
    match l with
    | c :: t =>
      if c = '"' then
        match parseStrChars t with
        | none => none
        | some (keyChars, r1) =>
          match skipWs r1 with
          | c2 :: r2 =>
            if c2 = ':' then
              match parseValue (skipWs r2) with
              | none => none
              | some (v, r3) =>
                match updateFields (String.mk keyChars) v code msg with
                | none => none
                | some (code, msg) =>
                  match skipWs r3 with
                  | c3 :: r4 =>
                    if c3 = ',' then parseFieldsAux fuel (skipWs r4) code msg
                    else if c3 = Char.ofNat 125 then
                      if skipWs r4 = ([] : List Char) then some (code, msg) else none
                    else none
                  | [] => none
            else none
          | [] => none
      else none
    | [] => none

/-- Modelled from the spec: decoding the server-supplied structured
fields (`code`, `message`) out of a response body — the repository's
JSON codec (`github.com/Vedza/disgord/json`) is not under `src/`.  The
model accepts a flat JSON object whose values are strings or integers
and returns the decoded `code`/`message` fields; `none` is decode
failure. -/
def jsonDecodeErrFields (s : String) : Option (Option Int × Option String) :=
  match skipWs s.data with
  | c :: t =>
    if c = Char.ofNat 123 then
      match skipWs t with
      | c2 :: r =>
        if c2 = Char.ofNat 125 then
          if skipWs r = ([] : List Char) then some (none, none) else none
        else parseFieldsAux (t.length + 1) (skipWs t) none none
      | [] => none
    else none
  | [] => none

/-- Modelled from the spec: `json.Unmarshal(body, err)` against `ErrREST`
overlays the decodable fields `Code` and `Msg` on success (an absent
field leaves the prior value) and leaves the error value unchanged on
decode failure; fields tagged `json:"-"` are never touched. -/
def unmarshalErrREST (body : String) (e : ErrREST) : ErrREST :=
  match jsonDecodeErrFields body with
  | none => e
  | some (c, m) => { e with Code := c.getD e.Code, Msg := m.getD e.Msg }

/-! ## Dispatch (`client.go` lines 226-312) -/

/-- The fixed message head of the status-classification error
(`client.go` line 293). -/
def restErrMsgHead : String :=
  "response was not within the successful http code range [200, 300). code: "

/-- The `&ErrREST{...}` literal of `client.go` lines 296-302: the
status-based message, the raw body as suggestion, the bucket-diagnostic
list and the request's bucket key. -/
def baseRestErr (grouping : String → List String) (hashedEndpoint : String)
    (resp : Response) (body : String) : ErrREST :=
  { Code := 0
    Msg := restErrMsgHead ++ toString resp.statusCode
    Suggestion := body
    HTTPCode := resp.statusCode
    Bucket := grouping hashedEndpoint
    HashedEndpoint := hashedEndpoint }

/-- The final error value: `client.go` lines 304-307 overlay the decoded
body fields when the body is non-empty. -/
def classifyErr (grouping : String → List String) (hashedEndpoint : String)
    (resp : Response) (body : String) : ErrREST :=
  if body.length > 0 then
    unmarshalErrREST body (baseRestErr grouping hashedEndpoint resp body)
  else baseRestErr grouping hashedEndpoint resp body

/-- Status-classification: `client.go` lines 288-311.  `noDiff` is
`http.StatusNotModified` (304); success returns the response and body,
anything else builds the structured `ErrREST`. -/
def classify (grouping : String → List String) (hashedEndpoint : String)
    (resp : Response) (body : String) :
    Option Response × Option String × Option DoError :=
  if ¬ (resp.statusCode = 304 ∨ (200 ≤ resp.statusCode ∧ resp.statusCode < 300)) then
    (none, none, some (.rest (classifyErr grouping hashedEndpoint resp body)))
  else
    (some resp, some body, none)

/-- The outgoing `*http.Request` built by `Client.Do` (lines 245-258):
method, absolute url, optional body bytes, assembled header. -/
structure OutReq where
  method : String
  url : String
  body : Option String
  header : HeaderVal

/-- Value-level denotation of the header assembly of `client.go` lines
250-258: copy the shared template, set the content type, and add the
audit-annotation header when the request carries a non-empty `Reason`.
(The `Del` of the empty-`Reason` branch acts on the request's own fresh
header, which is immediately overwritten; see `dispatchHeaders` for the
store-level embedding.) -/
def buildHeaderVal (tmpl : HeaderVal) (ct reason : String) : HeaderVal :=
  let header := copyHeader tmpl
  let header := hSet header ContentType ct
  if reason ≠ "" then hAdd header XAuditLogReason reason else header

/-- Outcomes of the external collaborators consumed by one `Client.Do`
call: the JSON marshaller, the (stdlib) `http.NewRequestWithContext`
outcome, the bucket transaction (`c.buckets.Bucket` + `RESTBucket.Transaction`,
both behind interfaces), and the manager's diagnostic grouping. -/
structure Ext where
  marshal : JVal → Except String String
  newReqErr : Option String
  txn : OutReq → Option Response × Option String × Option String
  grouping : String → List String

/-- `Client.Do` (`client.go` lines 226-312).  The result is `none` when
the Go code would dereference a nil response (a transaction that returns
neither an error nor a response — impossible for transactions that
forward the result of the in-source work function, see
`doWork_wellFormed`); otherwise `some (resp, body, err)` mirrors Go's
named return triple. -/
def Client.Do (c : Client) (ext : Ext) (r0 : Request) :
    Option (Option Response × Option String × Option DoError) :=
  match prepareBody ext.marshal r0.PopulateMissing with
  | .error e => some (none, none, some e)
  | .ok r =>
    match ext.newReqErr with
    | some e => some (none, none, some (.newRequestFailed e))
    | none =>
      match ext.txn
          { method := r.method
            url := c.url ++ r.endpoint
            body := r.bodyReader
            header := buildHeaderVal c.reqHeader r.contentType r.reason } with
      | (resp?, body?, err?) =>
        match err? with
        | some e => some (none, none, some (.txnFailed e))
        | none =>
          match resp? with
          | none => none
          | some resp =>
            some (classify ext.grouping r.hashedEndpoint resp (body?.getD ""))

/-- The transaction work function (`client.go` lines 262-281): perform
the network call, stamp the receipt timestamp, decode the body, then
normalize the Discord headers (`NormalizeDiscordHeader` lives outside
`src/` and is abstracted as `normalize`, returning the new header and an
optional error). -/
def doWork (gunzip : String → Except String String)
    (normalize : Int → HeaderVal → String → HeaderVal × Option String)
    (now : Int) (httpResult : Except String Response) :
    Option Response × Option String × Option String :=
  match httpResult with
  | .error e => (none, none, some e)
  | .ok resp0 =>
    match Client.decodeResponseBody gunzip
        { resp0 with header := hSet resp0.header XDisgordNow (toString now) } with
    | .error e => (none, none, some e)
    | .ok body =>
      (some { resp0 with
          header :=
            (normalize resp0.statusCode
              (hSet resp0.header XDisgordNow (toString now)) body).1 },
       some body,
       (normalize resp0.statusCode
         (hSet resp0.header XDisgordNow (toString now)) body).2)

/-- Well-formedness of a transaction result: no error implies a
response is present (what the in-source work function guarantees,
`doWork_wellFormed`). -/
def txnWellFormed (t : Option Response × Option String × Option String) : Prop :=
  t.2.2 = none → t.1.isSome = true

/-! ## Store-level header phase (aliasing model for `client.go` 245-258) -/

/-- A heap of Go header maps: `http.Header` values are references into
the store (Go maps are reference values). -/
structure Store where
  cells : List HeaderVal

/-- Dereference. -/
def Store.get (s : Store) (r : Nat) : HeaderVal :=
  s.cells.getD r []

/-- In-place update of one header map. -/
def Store.set (s : Store) (r : Nat) (v : HeaderVal) : Store :=
  ⟨s.cells.set r v⟩

/-- Allocate a fresh header map. -/
def Store.alloc (s : Store) (v : HeaderVal) : Store × Nat :=
  (⟨s.cells ++ [v]⟩, s.cells.length)

/-- Store-level embedding of the header phase of `Client.Do`
(`client.go` lines 245, 250-258): `http.NewRequestWithContext` allocates
the request's own fresh header; `copyHeader(c.reqHeader)` allocates a
fresh map copied entry-by-entry; `Set`/`Add` mutate the copy; the
empty-`Reason` branch `Del`s on the request's own header, which the
final assignment `req.Header = header` then discards.  Returns the
final store and the reference held by `req.Header`. -/
def dispatchHeaders (s0 : Store) (reqHeaderRef : Nat) (ct reason : String) :
    Store × Nat :=
  let a1 := s0.alloc []
  let s1 := a1.1
  let reqHdr := a1.2
  let a2 := s1.alloc (copyHeader (s1.get reqHeaderRef))
  let s2 := a2.1
  let header := a2.2
  let s3 := s2.set header (hSet (s2.get header) ContentType ct)
  let s4 :=
    if reason ≠ "" then s3.set header (hAdd (s3.get header) XAuditLogReason reason)
    else s3.set reqHdr (hDel (s3.get reqHdr) XAuditLogReason)
  (s4, header)

/-! ## Bucket exclusion protocol (modelled from the spec) -/

/-- Where a dispatching thread stands relative to its bucket's
transaction: `lockedPre`/`inCall`/`lockedPost` are the phases during
which the bucket's exclusive access is held; `inCall` is the phase in
which the underlying network call is in flight. -/
inductive TPhase where
  | idle
  | waiting
  | lockedPre
  | inCall
  | lockedPost
  | done
deriving DecidableEq

/-- Modelled from the spec (§4.3, §5): the global picture of concurrent
dispatches — each thread's phase, and for each bucket key the thread (if
any) currently holding that bucket's exclusive access.  The `RESTBucket`
implementation itself lives outside `src/`. -/
structure BSys where
  phase : Nat → TPhase
  holder : String → Option Nat

/-- Modelled from the spec (§4.3): one step of the bucket exclusion
protocol for a fixed assignment `key` of dispatching threads to bucket
keys.  Exclusive access is acquired only when free, the network call
happens only while access is held, and release hands the bucket back. -/
inductive BStep (key : Nat → String) : BSys → BSys → Prop where
  | start (i : Nat) (s : BSys) :
      s.phase i = .idle →
      BStep key s ⟨Function.update s.phase i .waiting, s.holder⟩
  | acquire (i : Nat) (s : BSys) :
      s.phase i = .waiting → s.holder (key i) = none →
      BStep key s
        ⟨Function.update s.phase i .lockedPre,
         Function.update s.holder (key i) (some i)⟩
  | callStart (i : Nat) (s : BSys) :
      s.phase i = .lockedPre →
      BStep key s ⟨Function.update s.phase i .inCall, s.holder⟩
  | callEnd (i : Nat) (s : BSys) :
      s.phase i = .inCall →
      BStep key s ⟨Function.update s.phase i .lockedPost, s.holder⟩
  | release (i : Nat) (s : BSys) :
      s.phase i = .lockedPost →
      BStep key s
        ⟨Function.update s.phase i .done,
         Function.update s.holder (key i) none⟩

/-- The all-idle initial system. -/
def BSys.init : BSys := ⟨fun _ => .idle, fun _ => none⟩

/-- States reachable by the bucket exclusion protocol. -/
inductive BReachable (key : Nat → String) : BSys → Prop where
  | init : BReachable key BSys.init
  | step {s s' : BSys} : BReachable key s → BStep key s s' → BReachable key s'

/-- A phase that holds the bucket's exclusive access. -/
def TPhase.locked : TPhase → Prop
  | .lockedPre => True
  | .inCall => True
  | .lockedPost => True
  | _ => False

/-- The lock invariant: every thread in a locked phase is the recorded
holder of its bucket's exclusive access. -/
def BInv (key : Nat → String) (s : BSys) : Prop :=
  ∀ i, (s.phase i).locked → s.holder (key i) = some i

/-! ## Concrete sample data for witnesses and counterexamples -/

/-- `needle` occurs verbatim inside `hay`. -/
def embedsText (needle hay : String) : Prop :=
  ∃ pre post, hay = pre ++ needle ++ post

/-- The body of the spec's 403 example:
`\x7b"code":50001,"message":"Missing Access"\x7d`. -/
def body403 : String := "\x7b\"code\":50001,\"message\":\"Missing Access\"\x7d"

/-- A 403 response carrying `body403`. -/
def resp403 : Response := ⟨403, [], .ok body403⟩

/-- A concrete client as produced by `NewClient`. -/
def sampleClient : Client :=
  { url := BaseURL ++ "/v8"
    reqHeader :=
      [("Authorization", ["token"]),
       ("User-Agent", ["DiscordBot (src, 1.0) "]),
       ("Accept-Encoding", ["gzip"])]
    httpClient := ⟨1⟩
    cancelRequestWhenRateLimited := false
    buckets := defaultManager }

/-- External collaborators whose transaction yields the 403 response. -/
def ext403 : Ext :=
  { marshal := fun _ => .ok ""
    newReqErr := none
    txn := fun _ => (some resp403, some body403, none)
    grouping := fun _ => [] }

/-- A concrete GET request before finalization. -/
def req403 : Request :=
  { method := "GET"
    endpoint := "/channels/123"
    body := none
    contentType := ""
    reason := ""
    bodyReader := none
    hashedEndpoint := "" }

/-- The error value `Client.Do` produces on the 403 dispatch. -/
def errC2 : ErrREST :=
  { Code := 50001
    Msg := "Missing Access"
    Suggestion := body403
    HTTPCode := 403
    Bucket := []
    HashedEndpoint := "/channels/***" }

/-- Thread-to-bucket assignment for the exclusion witness: every thread
shares one bucket key. -/
def keyW : Nat → String := fun _ => "bucket"

/-- Witness protocol state: thread 0 has started waiting. -/
def bsys1 : BSys := ⟨Function.update BSys.init.phase 0 .waiting, BSys.init.holder⟩

/-- Witness protocol state: thread 0 holds the bucket. -/
def bsys2 : BSys :=
  ⟨Function.update bsys1.phase 0 .lockedPre,
   Function.update bsys1.holder (keyW 0) (some 0)⟩

/-- Witness protocol state: thread 0's network call is in flight. -/
def bsys3 : BSys := ⟨Function.update bsys2.phase 0 .inCall, bsys2.holder⟩

/-- A one-cell store holding the sample client's template header. -/
def store6 : Store := ⟨[sampleClient.reqHeader]⟩

/-- A request pairing a structured body with a non-JSON content type. -/
def reqBadBody : Request :=
  { method := "POST"
    endpoint := "/channels/123/messages"
    body := some (.value ⟨0⟩)
    contentType := "text/plain"
    reason := ""
    bodyReader := none
    hashedEndpoint := "" }

/-- A second, observably different set of external collaborators (its
transaction always fails). -/
def extAlt : Ext :=
  { marshal := fun _ => .error "marshal failure"
    newReqErr := some "bad request"
    txn := fun _ => (none, none, some "network down")
    grouping := fun _ => ["g"] }

/-- A 500 response with a body the JSON codec cannot decode. -/
def resp500 : Response := ⟨500, [], .ok "oops"⟩

/-- External collaborators whose transaction yields the 500 response. -/
def ext500 : Ext :=
  { marshal := fun _ => .ok ""
    newReqErr := none
    txn := fun _ => (some resp500, some "oops", none)
    grouping := fun _ => [] }

/-- A 304 (not-modified) response. -/
def resp304 : Response := ⟨304, [], .ok "cached"⟩

/-- External collaborators whose transaction yields the 304 response. -/
def ext304 : Ext :=
  { marshal := fun _ => .ok ""
    newReqErr := none
    txn := fun _ => (some resp304, some "cached", none)
    grouping := fun _ => [] }

/-- A fully valid configuration with no bucket manager injected. -/
def conf9 : Config :=
  { apiVersion := 8
    botToken := "token"
    httpClient := some ⟨1⟩
    cancelRequestWhenRateLimited := false
    restBucketManager := none
    userAgentVersion := "1.0"
    userAgentSourceURL := "https://example.org/bot"
    userAgentExtra := "" }

end Httd

namespace Httd

/-! # Theorems -/

/-- C10: the fixed allow-list of supported remote API versions contains
exactly one element — `SupportsDiscordAPIVersion v = true ↔ v = 8` for
every integer `v`. -/
theorem supportsDiscordAPIVersion_iff (v : Int) :
    SupportsDiscordAPIVersion v = true ↔ v = 8 := by
  simp [SupportsDiscordAPIVersion]
  exact eq_comm

/-- C5: `NewClient` returns a configuration error exactly when the API
version is unsupported, the bot credential is empty, the injected HTTP
transport is nil, or the user-agent source identifier or version is
empty; otherwise it returns a usable client. -/
theorem newClient_error_iff (conf : Config) :
    (∃ e, NewClient conf = .error e) ↔
      (SupportsDiscordAPIVersion conf.apiVersion = false ∨ conf.botToken = "" ∨
       conf.httpClient = none ∨ conf.userAgentSourceURL = "" ∨
       conf.userAgentVersion = "") := by
  unfold NewClient
  cases h1 : SupportsDiscordAPIVersion conf.apiVersion with
  | false => simp [h1]
  | true =>
    by_cases h2 : conf.botToken = ""
    · simp [h1, h2]
    · cases h3 : conf.httpClient with
      | none => simp [h1, h2, h3]
      | some hc =>
        by_cases h4 : conf.userAgentSourceURL = "" ∨ conf.userAgentVersion = ""
        · rcases h4 with h4 | h4 <;> simp [h1, h2, h3, h4]
        · push_neg at h4
          simp [h1, h2, h3, h4.1, h4.2]

/-- C9: a nil rate-limit bucket manager is not a configuration error —
`NewClient` substitutes the default manager and construction succeeds
whenever the other required parameters are valid. -/
theorem newClient_default_manager (conf : Config) (hc : HttpDoer)
    (hmgr : conf.restBucketManager = none)
    (hv : SupportsDiscordAPIVersion conf.apiVersion = true)
    (ht : conf.botToken ≠ "")
    (hhc : conf.httpClient = some hc)
    (hsrc : conf.userAgentSourceURL ≠ "")
    (hver : conf.userAgentVersion ≠ "") :
    ∃ cl, NewClient conf = .ok cl ∧ cl.buckets = defaultManager := by
  unfold NewClient
  simp [hv, ht, hhc, hsrc, hver, hmgr]

/-- Witness for C9 at the concrete configuration `conf9`. -/
theorem newClient_default_manager_witness :
    ∃ cl, NewClient conf9 = .ok cl ∧ cl.buckets = defaultManager :=
  newClient_default_manager conf9 ⟨1⟩ rfl rfl (by decide) rfl (by decide) (by decide)

/-- C3: a response whose `Content-Encoding` declares gzip and whose body
is a gzip compression of `b` decodes to exactly `b`; a response whose
`Content-Encoding` does not declare gzip passes its body through
byte-identical. -/
theorem decodeResponseBody_spec (gunzip : String → Except String String)
    (b compressed : String) (hround : gunzip compressed = .ok b) :
    (∀ (st : Int) (h2 : HeaderVal), hGet h2 ContentEncoding = GZIPCompression →
      Client.decodeResponseBody gunzip ⟨st, h2, .ok compressed⟩ = .ok b) ∧
    (∀ (st : Int) (hdr : HeaderVal) (raw : String),
      hGet hdr ContentEncoding ≠ GZIPCompression →
      Client.decodeResponseBody gunzip ⟨st, hdr, .ok raw⟩ = .ok raw) := by
  constructor
  · intro st h2 hh
    simp [Client.decodeResponseBody, hh, hround]
  · intro st hdr raw hh
    simp [Client.decodeResponseBody, hh]

/-- Witness for C3: with the identity as the (de)compression pair, a
gzip-declared `"hello"` decodes to `"hello"` and a non-gzip `"hello"`
passes through unchanged. -/
theorem decodeResponseBody_spec_witness :
    Client.decodeResponseBody Except.ok
        ⟨200, [(ContentEncoding, ["gzip"])], .ok "hello"⟩ = .ok "hello" ∧
    Client.decodeResponseBody Except.ok ⟨200, [], .ok "hello"⟩ = .ok "hello" :=
  ⟨(decodeResponseBody_spec Except.ok "hello" "hello" rfl).1 200
      [(ContentEncoding, ["gzip"])] (by decide),
   (decodeResponseBody_spec Except.ok "hello" "hello" rfl).2 200 [] "hello" (by decide)⟩

/-- C7: a request whose body is neither nil nor a raw byte reader, with
a (finalized) content type other than JSON, fails with the validation
error before any network I/O — the outcome is independent of every
external collaborator, so the transport is never invoked and no bucket
transaction is entered. -/
theorem do_validation_before_io (c : Client) (ext1 ext2 : Ext) (r : Request) (v : JVal)
    (hb : r.body = some (.value v)) (hbr : r.bodyReader = none)
    (hct : r.PopulateMissing.contentType ≠ ContentTypeJSON) :
    Client.Do c ext1 r = some (none, none, some (.validation validationMsg)) ∧
    Client.Do c ext1 r = Client.Do c ext2 r := by
  have hb' : r.PopulateMissing.body = some (.value v) := by
    simp [Request.PopulateMissing, hb]
  have hbr' : r.PopulateMissing.bodyReader = none := by
    simp [Request.PopulateMissing, hbr]
  have hp : ∀ m, prepareBody m r.PopulateMissing = .error (.validation validationMsg) := by
    intro m
    unfold prepareBody
    rw [hb', hbr']
    simp [hct]
  constructor
  · unfold Client.Do
    rw [hp]
  · unfold Client.Do
    rw [hp, hp]

/-- Witness for C7 at a concrete structured-body request with content
type `text/plain`. -/
theorem do_validation_before_io_witness :
    Client.Do sampleClient ext403 reqBadBody =
      some (none, none, some (.validation validationMsg)) ∧
    Client.Do sampleClient ext403 reqBadBody = Client.Do sampleClient extAlt reqBadBody :=
  do_validation_before_io sampleClient ext403 extAlt reqBadBody ⟨0⟩ rfl rfl (by decide)

/-- `classify` returns either the response/body success triple or the
structured-error triple. -/
theorem classify_shape (g : String → List String) (he : String)
    (resp : Response) (body : String) :
    classify g he resp body = (some resp, some body, none) ∨
    ∃ e, classify g he resp body = (none, none, some (.rest e)) := by
  unfold classify
  by_cases hs : ¬ (resp.statusCode = 304 ∨ (200 ≤ resp.statusCode ∧ resp.statusCode < 300))
  · right
    exact ⟨classifyErr g he resp body, if_pos hs⟩
  · left
    exact if_neg hs

/-- C8: every call to `Client.Do` (with a transaction that, like the
in-source work function, never yields neither response nor error)
returns exactly one of two outcomes: a response with a body and no
error, or nil response and nil body with exactly one error. -/
theorem do_total_outcomes (c : Client) (ext : Ext) (r : Request)
    (h : ∀ q, txnWellFormed (ext.txn q)) :
    ∃ res, Client.Do c ext r = some res ∧
      ((∃ resp body, res = (some resp, some body, none)) ∨
       (∃ e, res = (none, none, some e))) := by
  unfold Client.Do
  split
  · exact ⟨_, rfl, .inr ⟨_, rfl⟩⟩
  · split
    · exact ⟨_, rfl, .inr ⟨_, rfl⟩⟩
    · split
      next resp? body? err? hx =>
        cases err? with
        | some e => exact ⟨_, rfl, .inr ⟨_, rfl⟩⟩
        | none =>
          cases resp? with
          | none =>
            rename_i x1 r' heq1 err2 heq2 x2
            have hw := h { method := r'.method, url := c.url ++ r'.endpoint,
                           body := r'.bodyReader,
                           header := buildHeaderVal c.reqHeader r'.contentType r'.reason }
            rw [hx] at hw
            simp [txnWellFormed] at hw
          | some resp =>
            refine ⟨_, rfl, ?_⟩
            rcases classify_shape ext.grouping _ resp (body?.getD "")
              with hcl | ⟨e, hcl⟩
            · exact .inl ⟨_, _, hcl⟩
            · exact .inr ⟨_, hcl⟩

/-- Witness for C8 at the concrete 403 dispatch (its transaction always
yields a response). -/
theorem do_total_outcomes_witness :
    ∃ res, Client.Do sampleClient ext403 req403 = some res ∧
      ((∃ resp body, res = (some resp, some body, none)) ∨
       (∃ e, res = (none, none, some e))) :=
  do_total_outcomes sampleClient ext403 req403
    (fun _ => fun _ => by simp [ext403])

/-- The in-source transaction work function never yields "no error and
no response": it justifies the well-formedness hypothesis placed on
abstract transaction results. -/
theorem doWork_wellFormed (gunzip : String → Except String String)
    (normalize : Int → HeaderVal → String → HeaderVal × Option String)
    (now : Int) (httpResult : Except String Response) :
    txnWellFormed (doWork gunzip normalize now httpResult) := by
  unfold txnWellFormed doWork
  split
  · simp
  · split <;> simp

/-- `json.Unmarshal` into `ErrREST` never touches the fields tagged
`json:"-"`. -/
theorem unmarshalErrREST_preserves (body : String) (e : ErrREST) :
    (unmarshalErrREST body e).Suggestion = e.Suggestion ∧
    (unmarshalErrREST body e).HTTPCode = e.HTTPCode ∧
    (unmarshalErrREST body e).Bucket = e.Bucket ∧
    (unmarshalErrREST body e).HashedEndpoint = e.HashedEndpoint := by
  unfold unmarshalErrREST
  cases jsonDecodeErrFields body with
  | none => exact ⟨rfl, rfl, rfl, rfl⟩
  | some p => exact ⟨rfl, rfl, rfl, rfl⟩

/-- The final `Msg` is either the prior message or the decoded
server-supplied message. -/
theorem unmarshalErrREST_msg (body : String) (e : ErrREST) :
    (unmarshalErrREST body e).Msg = e.Msg ∨
    ∃ code?, jsonDecodeErrFields body = some (code?, some ((unmarshalErrREST body e).Msg)) := by
  unfold unmarshalErrREST
  cases hj : jsonDecodeErrFields body with
  | none => left; rfl
  | some p =>
    rcases p with ⟨c?, m?⟩
    cases m? with
    | none => left; rfl
    | some m => right; exact ⟨c?, by simp [hj]⟩

/-- The status-based message is embedded in `baseRestErr`'s message. -/
theorem baseRestErr_embeds (g : String → List String) (he : String)
    (resp : Response) (body : String) :
    embedsText (toString resp.statusCode) (baseRestErr g he resp body).Msg :=
  ⟨restErrMsgHead, "", by simp [baseRestErr, String.append_empty]⟩

/-- The classification error's message is either status-based or the
decoded server-supplied message out of a non-empty body. -/
theorem classifyErr_msg (g : String → List String) (he : String)
    (resp : Response) (body : String) :
    embedsText (toString resp.statusCode) (classifyErr g he resp body).Msg ∨
    (body ≠ "" ∧
      ∃ code?, jsonDecodeErrFields body = some (code?, some (classifyErr g he resp body).Msg)) := by
  unfold classifyErr
  by_cases hb : body.length > 0
  · rw [if_pos hb]
    rcases unmarshalErrREST_msg body (baseRestErr g he resp body) with hm | ⟨c?, hm⟩
    · left
      rw [hm]
      exact baseRestErr_embeds g he resp body
    · right
      refine ⟨?_, c?, hm⟩
      intro hempty
      rw [hempty] at hb
      simp at hb
  · rw [if_neg hb]
    left
    exact baseRestErr_embeds g he resp body

/-- A dispatch whose collaborators succeed up to the transaction, and
whose transaction yields a response and body, reduces to the status
classification of that response. -/
theorem do_reduces_to_classify (c : Client) (ext : Ext) (r r' : Request)
    (resp : Response) (body : String)
    (hprep : prepareBody ext.marshal r.PopulateMissing = .ok r')
    (hreq : ext.newReqErr = none)
    (htxn : ∀ q, ext.txn q = (some resp, some body, none)) :
    Client.Do c ext r = some (classify ext.grouping r'.hashedEndpoint resp body) := by
  unfold Client.Do
  simp only [hprep, hreq, htxn, Option.getD]

/-- `classifyErr` keeps the suggestion (raw body), status, bucket list
and bucket key of the base error. -/
theorem classifyErr_preserved (g : String → List String) (he : String)
    (resp : Response) (body : String) :
    (classifyErr g he resp body).Suggestion = body ∧
    (classifyErr g he resp body).HTTPCode = resp.statusCode ∧
    (classifyErr g he resp body).Bucket = g he ∧
    (classifyErr g he resp body).HashedEndpoint = he := by
  unfold classifyErr
  by_cases hb : body.length > 0
  · rw [if_pos hb]
    have h := unmarshalErrREST_preserves body (baseRestErr g he resp body)
    exact ⟨h.1.trans rfl, h.2.1.trans rfl, h.2.2.1.trans rfl, h.2.2.2.trans rfl⟩
  · rw [if_neg hb]
    exact ⟨rfl, rfl, rfl, rfl⟩

/-- A character of the needle that does not occur in the haystack rules
out an embedding. -/
theorem not_embeds_of_not_mem (needle hay : String) (ch : Char)
    (hch : ch ∈ needle.data) (hh : ch ∉ hay.data) : ¬ embedsText needle hay := by
  rintro ⟨p, q, h⟩
  apply hh
  rw [h, String.data_append, String.data_append]
  simp only [List.mem_append]
  exact .inl (.inr hch)

/-- C1 (amended): a dispatch whose transaction yields a response and body
returns them with no error exactly when the status is in `[200,300)` or
equals 304; any other status returns nil response, nil body, and a
structured error carrying the raw body as suggestion, the status, the
bucket-diagnostic list and the request's bucket key, whose message
embeds the numeric status unless a non-empty body decodes with a
server-supplied message that replaces it. -/
theorem do_status_classification (c : Client) (ext : Ext) (r r' : Request)
    (resp : Response) (body : String)
    (hprep : prepareBody ext.marshal r.PopulateMissing = .ok r')
    (hreq : ext.newReqErr = none)
    (htxn : ∀ q, ext.txn q = (some resp, some body, none)) :
    ((resp.statusCode = 304 ∨ (200 ≤ resp.statusCode ∧ resp.statusCode < 300)) →
      Client.Do c ext r = some (some resp, some body, none)) ∧
    (¬ (resp.statusCode = 304 ∨ (200 ≤ resp.statusCode ∧ resp.statusCode < 300)) →
      ∃ e : ErrREST, Client.Do c ext r = some (none, none, some (.rest e)) ∧
        e.Suggestion = body ∧ e.HTTPCode = resp.statusCode ∧
        e.Bucket = ext.grouping r'.hashedEndpoint ∧
        e.HashedEndpoint = r'.hashedEndpoint ∧
        (embedsText (toString resp.statusCode) e.Msg ∨
          (body ≠ "" ∧
            ∃ code?, jsonDecodeErrFields body = some (code?, some e.Msg)))) := by
  have hdo := do_reduces_to_classify c ext r r' resp body hprep hreq htxn
  constructor
  · intro hs
    rw [hdo]
    unfold classify
    rw [if_neg (not_not_intro hs)]
  · intro hs
    have hf := classifyErr_preserved ext.grouping r'.hashedEndpoint resp body
    exact ⟨classifyErr ext.grouping r'.hashedEndpoint resp body,
      by rw [hdo]; unfold classify; rw [if_pos hs],
      hf.1, hf.2.1, hf.2.2.1, hf.2.2.2,
      classifyErr_msg ext.grouping r'.hashedEndpoint resp body⟩

/-- Witness for C1 (amended): the 304 dispatch succeeds with response
and body; the 403 dispatch yields the structured error. -/
theorem do_status_classification_witness :
    Client.Do sampleClient ext304 req403 = some (some resp304, some "cached", none) ∧
    (∃ e : ErrREST,
      Client.Do sampleClient ext403 req403 = some (none, none, some (.rest e)) ∧
      e.Suggestion = body403 ∧ e.HTTPCode = resp403.statusCode ∧
      e.Bucket = ext403.grouping (req403.PopulateMissing).hashedEndpoint ∧
      e.HashedEndpoint = (req403.PopulateMissing).hashedEndpoint ∧
      (embedsText (toString resp403.statusCode) e.Msg ∨
        (body403 ≠ "" ∧
          ∃ code?, jsonDecodeErrFields body403 = some (code?, some e.Msg)))) :=
  ⟨(do_status_classification sampleClient ext304 req403 req403.PopulateMissing
      resp304 "cached" rfl rfl (fun _ => rfl)).1 (by decide),
   (do_status_classification sampleClient ext403 req403 req403.PopulateMissing
      resp403 body403 rfl rfl (fun _ => rfl)).2 (by decide)⟩

/-- Counterexample for C1 as frozen: the 403 dispatch with body
`\x7b"code":50001,"message":"Missing Access"\x7d` is a non-success
status, yet the returned error's message is the decoded server message
`"Missing Access"`, which does not embed the numeric status `403`. -/
theorem do_status_message_counterexample :
    Client.Do sampleClient ext403 req403 = some (none, none, some (.rest errC2)) ∧
    ¬ (resp403.statusCode = 304 ∨ (200 ≤ resp403.statusCode ∧ resp403.statusCode < 300)) ∧
    ¬ embedsText (toString resp403.statusCode) errC2.Msg := by
  refine ⟨by rfl, by decide, ?_⟩
  have h1 : toString resp403.statusCode = "403" := by decide
  have h2 : errC2.Msg = "Missing Access" := rfl
  rw [h1, h2]
  exact not_embeds_of_not_mem "403" "Missing Access" '4' (by decide) (by decide)

/-- C2: the 403 dispatch with body
`\x7b"code":50001,"message":"Missing Access"\x7d` returns an error
carrying code 50001, message "Missing Access", status 403, and a
non-empty bucket key; and for every non-success response with a
non-empty body whose decode fails, the returned error is exactly the
status-based error — the status-based message is never discarded. -/
theorem do_error_decoded_fields :
    (Client.Do sampleClient ext403 req403 = some (none, none, some (.rest errC2)) ∧
     errC2.Code = 50001 ∧ errC2.Msg = "Missing Access" ∧ errC2.HTTPCode = 403 ∧
     errC2.HashedEndpoint ≠ "") ∧
    (∀ (c : Client) (ext : Ext) (r r' : Request) (resp : Response) (body : String),
      prepareBody ext.marshal r.PopulateMissing = .ok r' →
      ext.newReqErr = none →
      (∀ q, ext.txn q = (some resp, some body, none)) →
      ¬ (resp.statusCode = 304 ∨ (200 ≤ resp.statusCode ∧ resp.statusCode < 300)) →
      body ≠ "" → jsonDecodeErrFields body = none →
      Client.Do c ext r =
        some (none, none,
          some (.rest (baseRestErr ext.grouping r'.hashedEndpoint resp body)))) := by
  constructor
  · exact ⟨by rfl, rfl, rfl, rfl, by decide⟩
  · intro c ext r r' resp body hprep hreq htxn hs hb hdec
    have hdo := do_reduces_to_classify c ext r r' resp body hprep hreq htxn
    rw [hdo]
    unfold classify
    rw [if_pos hs]
    have hlen : body.length > 0 := by
      cases body with
      | mk l =>
        cases l with
        | nil => exact absurd rfl hb
        | cons a t => simp [String.length]
    unfold classifyErr
    rw [if_pos hlen]
    unfold unmarshalErrREST
    rw [hdec]

/-- Witness for C2's universal part: the 500 dispatch with the
undecodable body `"oops"` returns exactly the status-based error. -/
theorem do_error_decoded_fields_witness :
    Client.Do sampleClient ext500 req403 =
      some (none, none,
        some (.rest (baseRestErr ext500.grouping "/channels/***" resp500 "oops"))) :=
  do_error_decoded_fields.2 sampleClient ext500 req403 req403.PopulateMissing
    resp500 "oops" rfl rfl (fun _ => rfl) (by decide) (by decide) (by rfl)

/-! ### Header-map lemmas (for C6) -/

/-- Lookup after `hSetVals`. -/
theorem hGetVals_hSetVals (h : HeaderVal) (k : String) (vs : List String) (k' : String) :
    hGetVals (hSetVals h k vs) k' = if k = k' then vs else hGetVals h k' := by
  induction h with
  | nil =>
    by_cases hk : k = k' <;> simp [hSetVals, hGetVals, hk]
  | cons p t ih =>
    by_cases hk : k = k'
    · subst hk
      by_cases hp : p.1 = k <;> simp [hSetVals, hGetVals, hp, ih]
    · by_cases hp : p.1 = k
      · simp [hSetVals, hGetVals, hp, hk]
      · by_cases hpk : p.1 = k'
        · simp [hSetVals, hGetVals, hp, hk, hpk, Ne.symm hk]
        · simp [hSetVals, hGetVals, hp, hk, hpk, ih]

/-- Lookup after `hAdd`. -/
theorem hGetVals_hAdd (h : HeaderVal) (k v : String) (k' : String) :
    hGetVals (hAdd h k v) k' = if k = k' then hGetVals h k ++ [v] else hGetVals h k' := by
  unfold hAdd
  rw [hGetVals_hSetVals]

/-- Lookup after `hSet`. -/
theorem hGetVals_hSet (h : HeaderVal) (k v : String) (k' : String) :
    hGetVals (hSet h k v) k' = if k = k' then [v] else hGetVals h k' := by
  unfold hSet
  rw [hGetVals_hSetVals]

/-- Lookup after the inner `Add` loop of `copyHeader`. -/
theorem hGetVals_addVals (vs : List String) (cp : HeaderVal) (k k' : String) :
    hGetVals (addVals cp k vs) k' =
      if k = k' then hGetVals cp k ++ vs else hGetVals cp k' := by
  induction vs generalizing cp with
  | nil => by_cases hk : k = k' <;> simp [addVals, hk]
  | cons v vs ih =>
    unfold addVals at ih ⊢
    rw [List.foldl_cons, ih (hAdd cp k v)]
    by_cases hk : k = k' <;> simp [hGetVals_hAdd, hk]

/-- A key absent from the entry list has no values. -/
theorem hGetVals_eq_nil_of_not_mem (h : HeaderVal) (k : String)
    (hk : k ∉ h.map Prod.fst) : hGetVals h k = [] := by
  induction h with
  | nil => rfl
  | cons p t ih =>
    simp only [List.map_cons, List.mem_cons, not_or] at hk
    unfold hGetVals
    rw [if_neg (fun he => hk.1 he.symm)]
    exact ih hk.2

/-- Lookup through the `copyHeader` fold, for an accumulator blank on
all of `h`'s keys. -/
theorem hGetVals_copyFold (h : HeaderVal) (cp : HeaderVal)
    (hnd : (h.map Prod.fst).Nodup)
    (hcp : ∀ p ∈ h, hGetVals cp p.1 = []) (k : String) :
    hGetVals (h.foldl (fun cp p => addVals cp p.1 p.2) cp) k =
      if k ∈ h.map Prod.fst then hGetVals h k else hGetVals cp k := by
  induction h generalizing cp with
  | nil => simp
  | cons p t ih =>
    rw [List.foldl_cons]
    simp only [List.map_cons, List.nodup_cons] at hnd
    have hcp' : ∀ q ∈ t, hGetVals (addVals cp p.1 p.2) q.1 = [] := by
      intro q hq
      rw [hGetVals_addVals]
      have hne : p.1 ≠ q.1 := by
        intro he
        exact hnd.1 (he ▸ List.mem_map_of_mem Prod.fst hq)
      rw [if_neg hne]
      exact hcp q (List.mem_cons_of_mem p hq)
    rw [ih (addVals cp p.1 p.2) hnd.2 hcp']
    by_cases hk : k ∈ t.map Prod.fst
    · rw [if_pos hk, if_pos (by simp [hk])]
      have hne : p.1 ≠ k := fun he => hnd.1 (he ▸ hk)
      simp [hGetVals, hne]
    · rw [hGetVals_addVals]
      by_cases hpk : p.1 = k
      · rw [if_neg hk, if_pos hpk, if_pos (by simp [hpk.symm]),
          hcp p (List.mem_cons_self p t)]
        simp [hGetVals, hpk]
      · rw [if_neg hk, if_neg hpk,
          if_neg (by
            simp only [List.map_cons, List.mem_cons, not_or]
            exact ⟨fun he => hpk he.symm, hk⟩)]

/-- `copyHeader` is extensionally the identity on well-formed headers:
the fresh copy holds exactly the template's values. -/
theorem hGetVals_copyHeader (h : HeaderVal) (hnd : (h.map Prod.fst).Nodup) (k : String) :
    hGetVals (copyHeader h) k = hGetVals h k := by
  unfold copyHeader
  rw [hGetVals_copyFold h [] hnd (fun p _ => rfl) k]
  by_cases hk : k ∈ h.map Prod.fst
  · rw [if_pos hk]
  · rw [if_neg hk]
    exact (hGetVals_eq_nil_of_not_mem h k hk).symm

/-! ### Store lemmas (for C6) -/

/-- Updating a valid cell stores the new value. -/
theorem Store.get_set_eq (s : Store) (i : Nat) (v : HeaderVal)
    (hi : i < s.cells.length) : (s.set i v).get i = v := by
  unfold Store.set Store.get
  simp [List.getD_eq_getElem?_getD, List.getElem?_set_self, hi]

/-- Updating one cell leaves every other cell unchanged. -/
theorem Store.get_set_ne (s : Store) (i j : Nat) (v : HeaderVal)
    (h : i ≠ j) : (s.set i v).get j = s.get j := by
  unfold Store.set Store.get
  simp [List.getD_eq_getElem?_getD, List.getElem?_set_ne h]

/-- Allocation leaves existing cells unchanged. -/
theorem Store.get_alloc_lt (s : Store) (v : HeaderVal) (j : Nat)
    (h : j < s.cells.length) : (s.alloc v).1.get j = s.get j := by
  unfold Store.alloc Store.get
  exact List.getD_append s.cells [v] [] j h

/-- The fresh cell holds the allocated value. -/
theorem Store.get_alloc_self (s : Store) (v : HeaderVal) :
    (s.alloc v).1.get (s.alloc v).2 = v := by
  unfold Store.alloc Store.get
  simp [List.getD_eq_getElem?_getD, List.getElem?_concat_length]

/-- Updating a cell does not change the store size. -/
theorem Store.length_set (s : Store) (i : Nat) (v : HeaderVal) :
    (s.set i v).cells.length = s.cells.length := by
  simp [Store.set]

/-- Two successive updates of one valid cell store the second value. -/
theorem Store.get_set_set_eq (s : Store) (i : Nat) (a b : HeaderVal)
    (hi : i < s.cells.length) : ((s.set i a).set i b).get i = b :=
  Store.get_set_eq (s.set i a) i b (by rw [Store.length_set]; exact hi)

/-- C6: the header phase of every dispatch mutates only a fresh copy of
the client's shared default-header template — the template cell is
unchanged — and the outgoing request's header carries the
audit-annotation header exactly when the request carries a non-empty
audit annotation (and agrees with the template on every other key
except the content type). -/
theorem dispatchHeaders_spec (s0 : Store) (tmplRef : Nat) (ct reason : String)
    (htl : tmplRef < s0.cells.length)
    (hnd : ((s0.get tmplRef).map Prod.fst).Nodup)
    (haud : hGetVals (s0.get tmplRef) XAuditLogReason = []) :
    (dispatchHeaders s0 tmplRef ct reason).1.get tmplRef = s0.get tmplRef ∧
    hGetVals ((dispatchHeaders s0 tmplRef ct reason).1.get
        (dispatchHeaders s0 tmplRef ct reason).2) XAuditLogReason =
      (if reason = "" then [] else [reason]) ∧
    (∀ k, k ≠ ContentType → k ≠ XAuditLogReason →
      hGetVals ((dispatchHeaders s0 tmplRef ct reason).1.get
          (dispatchHeaders s0 tmplRef ct reason).2) k =
        hGetVals (s0.get tmplRef) k) := by
  have h1 : (s0.alloc []).1.get tmplRef = s0.get tmplRef :=
    Store.get_alloc_lt s0 [] tmplRef htl
  have hlen1 : (s0.alloc []).1.cells.length = s0.cells.length + 1 := by
    simp [Store.alloc]
  have htl1 : tmplRef < (s0.alloc []).1.cells.length := by omega
  have h2 : ((s0.alloc []).1.alloc (copyHeader ((s0.alloc []).1.get tmplRef))).1.get
      tmplRef = s0.get tmplRef :=
    (Store.get_alloc_lt _ _ tmplRef htl1).trans h1
  have hlen2 : ((s0.alloc []).1.alloc
      (copyHeader ((s0.alloc []).1.get tmplRef))).1.cells.length =
      s0.cells.length + 2 := by
    simp [Store.alloc]
  have hr2 : ((s0.alloc []).1.alloc (copyHeader ((s0.alloc []).1.get tmplRef))).2 =
      s0.cells.length + 1 := by
    simp [Store.alloc]
  have hr1 : (s0.alloc []).2 = s0.cells.length := rfl
  have hneT2 : ((s0.alloc []).1.alloc (copyHeader ((s0.alloc []).1.get tmplRef))).2 ≠
      tmplRef := by omega
  have hneT1 : (s0.alloc []).2 ≠ tmplRef := by omega
  have hne12 : (s0.alloc []).2 ≠
      ((s0.alloc []).1.alloc (copyHeader ((s0.alloc []).1.get tmplRef))).2 := by omega
  have hcopy : ((s0.alloc []).1.alloc (copyHeader ((s0.alloc []).1.get tmplRef))).1.get
      ((s0.alloc []).1.alloc (copyHeader ((s0.alloc []).1.get tmplRef))).2 =
      copyHeader (s0.get tmplRef) := by
    rw [Store.get_alloc_self, h1]
  have hv2 : ((s0.alloc []).1.alloc (copyHeader ((s0.alloc []).1.get tmplRef))).2 <
      ((s0.alloc []).1.alloc (copyHeader ((s0.alloc []).1.get tmplRef))).1.cells.length := by
    omega
  by_cases hre : reason = ""
  · simp only [dispatchHeaders, hre, ne_eq, not_true_eq_false, if_false, if_pos]
    rw [Store.get_set_ne _ _ _ _ hneT1, Store.get_set_ne _ _ _ _ hneT2, h2,
      Store.get_set_ne _ _ _ _ hne12, Store.get_set_eq _ _ _ hv2, hcopy]
    refine ⟨rfl, ?_, ?_⟩
    · rw [hGetVals_hSet, if_neg (by decide),
        hGetVals_copyHeader (s0.get tmplRef) hnd, haud]
    · intro k hkc hka
      rw [hGetVals_hSet, if_neg (fun he => hkc he.symm),
        hGetVals_copyHeader (s0.get tmplRef) hnd]
  · simp only [dispatchHeaders, hre, ne_eq, not_false_eq_true, if_true, if_neg]
    rw [Store.get_set_ne _ _ _ _ hneT2, Store.get_set_ne _ _ _ _ hneT2, h2,
      Store.get_set_eq _ _ _ hv2, Store.get_set_set_eq _ _ _ _ hv2, hcopy]
    refine ⟨rfl, ?_, ?_⟩
    · rw [hGetVals_hAdd, if_pos rfl, hGetVals_hSet, if_neg (by decide),
        hGetVals_copyHeader (s0.get tmplRef) hnd, haud]
      rfl
    · intro k hkc hka
      rw [hGetVals_hAdd, if_neg (fun he => hka he.symm), hGetVals_hSet,
        if_neg (fun he => hkc he.symm), hGetVals_copyHeader (s0.get tmplRef) hnd]

/-- Witness for C6: dispatching with the sample client's template, the
JSON content type and the audit annotation `"ban evasion"`. -/
theorem dispatchHeaders_spec_witness :
    (dispatchHeaders store6 0 ContentTypeJSON "ban evasion").1.get 0 = store6.get 0 ∧
    hGetVals ((dispatchHeaders store6 0 ContentTypeJSON "ban evasion").1.get
        (dispatchHeaders store6 0 ContentTypeJSON "ban evasion").2) XAuditLogReason =
      (if "ban evasion" = "" then [] else ["ban evasion"]) ∧
    (∀ k, k ≠ ContentType → k ≠ XAuditLogReason →
      hGetVals ((dispatchHeaders store6 0 ContentTypeJSON "ban evasion").1.get
          (dispatchHeaders store6 0 ContentTypeJSON "ban evasion").2) k =
        hGetVals (store6.get 0) k) :=
  dispatchHeaders_spec store6 0 ContentTypeJSON "ban evasion"
    (by decide) (by decide) (by decide)

/-! ### Bucket exclusion (C4) -/

/-- The all-idle initial state satisfies the lock invariant. -/
theorem binv_init (key : Nat → String) : BInv key BSys.init := by
  intro i h
  exact absurd h (by simp [BSys.init, TPhase.locked])

/-- Every protocol step preserves the lock invariant. -/
theorem binv_step (key : Nat → String) {s s' : BSys}
    (hs : BInv key s) (st : BStep key s s') : BInv key s' := by
  cases st with
  | start i s hp =>
    intro j hj
    dsimp only at hj ⊢
    by_cases hij : j = i
    · subst hij
      rw [Function.update_same] at hj
      exact absurd hj (by simp [TPhase.locked])
    · rw [Function.update_noteq hij] at hj
      exact hs j hj
  | acquire i s hp hh =>
    intro j hj
    dsimp only at hj ⊢
    by_cases hij : j = i
    · subst hij
      rw [Function.update_same]
    · rw [Function.update_noteq hij] at hj
      have hj' := hs j hj
      by_cases hk : key j = key i
      · rw [hk, hh] at hj'
        exact absurd hj' (by simp)
      · rw [Function.update_noteq hk]
        exact hj'
  | callStart i s hp =>
    intro j hj
    dsimp only at hj ⊢
    by_cases hij : j = i
    · subst hij
      exact hs j (by rw [hp]; trivial)
    · rw [Function.update_noteq hij] at hj
      exact hs j hj
  | callEnd i s hp =>
    intro j hj
    dsimp only at hj ⊢
    by_cases hij : j = i
    · subst hij
      exact hs j (by rw [hp]; trivial)
    · rw [Function.update_noteq hij] at hj
      exact hs j hj
  | release i s hp =>
    intro j hj
    dsimp only at hj ⊢
    by_cases hij : j = i
    · subst hij
      rw [Function.update_same] at hj
      exact absurd hj (by simp [TPhase.locked])
    · rw [Function.update_noteq hij] at hj
      have hj' := hs j hj
      by_cases hk : key j = key i
      · have hi' := hs i (by rw [hp]; trivial)
        rw [hk] at hj'
        rw [hj'] at hi'
        exact absurd (Option.some.inj hi') hij
      · rw [Function.update_noteq hk]
        exact hj'

/-- Every reachable state satisfies the lock invariant. -/
theorem binv_reachable (key : Nat → String) {s : BSys}
    (h : BReachable key s) : BInv key s := by
  induction h with
  | init => exact binv_init key
  | step hr st ih => exact binv_step key ih st

/-- C4: in every reachable state of the bucket exclusion protocol, a
thread whose network call is in flight holds its bucket's exclusive
access (the call runs inside that bucket's transaction), and at most one
network call is in flight per bucket key at any instant. -/
theorem bucket_mutual_exclusion (key : Nat → String) (s : BSys)
    (h : BReachable key s) :
    (∀ i, s.phase i = .inCall → s.holder (key i) = some i) ∧
    (∀ i j, s.phase i = .inCall → s.phase j = .inCall → key i = key j → i = j) := by
  have hinv := binv_reachable key h
  constructor
  · intro i hi
    exact hinv i (by rw [hi]; trivial)
  · intro i j hi hj hk
    have h1 := hinv i (by rw [hi]; trivial)
    have h2 := hinv j (by rw [hj]; trivial)
    rw [hk] at h1
    rw [h1] at h2
    exact Option.some.inj h2

/-- Witness for C4: after thread 0 starts, acquires the bucket and
enters its network call, it is the recorded holder. -/
theorem bucket_mutual_exclusion_witness :
    bsys3.phase 0 = .inCall ∧ bsys3.holder (keyW 0) = some 0 := by
  have hreach : BReachable keyW bsys3 :=
    .step (.step (.step .init (.start 0 BSys.init rfl))
      (.acquire 0 bsys1 rfl rfl)) (.callStart 0 bsys2 rfl)
  exact ⟨rfl, (bucket_mutual_exclusion keyW bsys3 hreach).1 0 rfl⟩

end Httd
